import Mathlib

/-!
Verification of the manage-tools tool-registry core.

This file gives a shallow embedding of the Python modules
`core/tools/management.py`, `interfaces/database/schema.py`,
`interfaces/database/connection.py` and
`interfaces/filesystem/validation.py`, and proves the stated
properties about them.

The SQLite connection is modelled as a pair of stores: the `committed`
store on disk and the `working` store the open connection sees
(its own uncommitted writes included).  `commit` copies working to
committed; `rollback` copies committed back to working.  Every
`db_conn.execute(...)` call in the Python source becomes one `execStep`,
which consults an oracle `ExecEnv.execOk` (indexed by the number of
statements executed so far) so that storage-engine failures at any
statement can be expressed.  DDL is modelled as data (`SchemaOp`)
acting on the sets of table and index names, matching SQLite semantics
(`IF NOT EXISTS` / `IF EXISTS`, dropping a table drops its indexes).
Python exceptions become an `Except` result: `ValueError` and
`FileNotFoundError` carry their message, engine errors are
`storageError`.  Clock reads are a parameter: `Clock.utcNow` is what
SQLite `CURRENT_TIMESTAMP` yields, `Clock.localNowIso` is what
`datetime.now().isoformat()` yields.
-/

namespace ManageTools

/-- Python exceptions surfaced by the registry core. -/
inductive ToolError
  | valueError (msg : String)
  | fileNotFound (msg : String)
  | storageError
deriving DecidableEq, Repr

/-- A row of the `tools` registry table. -/
structure Tool where
  id : Nat
  name : String
  description : String
  source_directory : String
  is_active : Bool
  app_version : Option String
  created_at : String
  updated_at : String
deriving DecidableEq, Repr

/-- One character of the class `[a-zA-Z0-9_-]`. -/
def isValidNameChar (c : Char) : Bool :=
  ('a' ≤ c && c ≤ 'z') || ('A' ≤ c && c ≤ 'Z') || ('0' ≤ c && c ≤ '9')
    || c = '_' || c = '-'

/-- Semantics of Python `re.match(r'^[a-zA-Z0-9_-]+$', s)`: the `$`
anchor also matches just before a newline at the very end of the
string, so a single trailing newline is tolerated. -/
def pyNameMatch (s : List Char) : Bool :=
  let core := if s.getLast? = some '\n' then s.dropLast else s
  !core.isEmpty && core.all isValidNameChar

/-- The three failure kinds of `_validate_tool_name`. -/
inductive NameFailure
  | emptyName
  | invalidCharacters
  | nameTooLong
deriving DecidableEq, Repr

/-- The `ValueError` messages raised by `_validate_tool_name`. -/
def nameFailureMsg : NameFailure → String
  | .emptyName => "Tool name cannot be empty"
  | .invalidCharacters =>
      "Tool name can only contain letters, numbers, hyphens (-), and underscores (_)"
  | .nameTooLong => "Tool name must be 64 characters or less"

/-- `_validate_tool_name`: empty check, then the regex match, then the
length bound, in source order.  `none` means validation passed. -/
def validateToolName (name : String) : Option NameFailure :=
  if name.data.isEmpty then some .emptyName
  else if !(pyNameMatch name.data) then some .invalidCharacters
  else if name.data.length > 64 then some .nameTooLong
  else none

/-- What a resolved filesystem path points at. -/
inductive PathKind
  | missing
  | file
  | dir
deriving DecidableEq, Repr

/-- Abstract filesystem: `resolve` mirrors `Path(p).resolve()` (an
`Except.error` is a raised platform error carrying the exception text),
`kind` mirrors the `exists()` / `is_dir()` stats of the resolved path. -/
structure FileSystem where
  resolve : String → Except String String
  kind : String → PathKind

/-- `validate_directory_path`: returns `(is_valid, resolved_path,
error_message)` exactly as the Python function does, message texts
included. -/
def validate_directory_path (fs : FileSystem) (directory_path : String) :
    Bool × String × String :=
  match fs.resolve directory_path with
  | .error e =>
      (false, "", "Invalid path: " ++ directory_path ++ " (" ++ e ++ ")")
  | .ok path =>
      match fs.kind path with
      | .missing => (false, "", "Directory does not exist: " ++ directory_path)
      | .file => (false, "", "Path is not a directory: " ++ directory_path)
      | .dir => (true, path, "")

/-- Python's `needle in hay` substring test. -/
def strContains (hay needle : String) : Bool :=
  (List.range (hay.data.length + 1)).any
    (fun i => needle.data.isPrefixOf (hay.data.drop i))

/-- Per-tool table and index names, interpolated from the tool id as in
`schema.py`. -/
def docTableName (tool_id : Nat) : String := "documents_" ++ toString tool_id

/-- Name of the per-tool vectors table. -/
def vecTableName (tool_id : Nat) : String := "vectors_" ++ toString tool_id

/-- Index `idx_vectors_<id>_embedding` on `vectors_<id> (embedding)`. -/
def idxVecEmbedding (tool_id : Nat) : String :=
  "idx_vectors_" ++ toString tool_id ++ "_embedding"

/-- Index `idx_vectors_<id>_tool_doc` on `vectors_<id> (tool_id, document_id)`. -/
def idxVecToolDoc (tool_id : Nat) : String :=
  "idx_vectors_" ++ toString tool_id ++ "_tool_doc"

/-- Index `idx_documents_<id>_tool` on `documents_<id> (tool_id)`. -/
def idxDocTool (tool_id : Nat) : String :=
  "idx_documents_" ++ toString tool_id ++ "_tool"

/-- Unique index `idx_documents_<id>_path_hash` on
`documents_<id> (tool_id, file_path, content_hash)`. -/
def idxDocPathHash (tool_id : Nat) : String :=
  "idx_documents_" ++ toString tool_id ++ "_path_hash"

/-- Index `idx_documents_<id>_tool_path` on `documents_<id> (tool_id, file_path)`. -/
def idxDocToolPath (tool_id : Nat) : String :=
  "idx_documents_" ++ toString tool_id ++ "_tool_path"

/-- Index `idx_vectors_<id>_position` on
`vectors_<id> (document_id, start_position, end_position)`. -/
def idxVecPosition (tool_id : Nat) : String :=
  "idx_vectors_" ++ toString tool_id ++ "_position"

/-- Schema objects of one database: the `tools` rows, the
AUTOINCREMENT counter, the dynamically created table names and the
index names (paired with the table each index lives on). -/
structure DbStore where
  tools : List Tool
  nextId : Nat
  tables : List String
  indexes : List (String × String)
deriving DecidableEq, Repr

/-- An open `DatabaseConnection`: the committed on-disk store, the
working store this connection sees, and how many statements were
executed (the oracle index). -/
structure DbConn where
  committed : DbStore
  working : DbStore
  execCount : Nat
deriving DecidableEq, Repr

/-- Oracle: whether the k-th statement handed to the storage engine
succeeds.  `false` models an engine error raised by `execute`. -/
structure ExecEnv where
  execOk : Nat → Bool

/-- `db_conn.commit()`. -/
def commitConn (c : DbConn) : DbConn := { c with committed := c.working }

/-- `db_conn.rollback()`. -/
def rollbackConn (c : DbConn) : DbConn := { c with working := c.committed }

/-- One `db_conn.execute(...)` call: consult the oracle, then apply the
statement's effect `f` to the working store (returning the cursor's
result). -/
def execStep {α : Type} (env : ExecEnv) (f : DbStore → DbStore × α)
    (c : DbConn) : DbConn × Except ToolError α :=
  if env.execOk c.execCount then
    ({ c with working := (f c.working).1, execCount := c.execCount + 1 },
     .ok (f c.working).2)
  else
    ({ c with execCount := c.execCount + 1 }, .error .storageError)

/-- The DDL statements issued by `schema.py`, as data. -/
inductive SchemaOp
  | createTable (name : String)
  | createIndex (table : String) (name : String)
  | dropTable (name : String)
deriving DecidableEq, Repr

/-- SQLite semantics of one DDL statement on the schema:
`CREATE ... IF NOT EXISTS` is a no-op when the name exists,
`DROP TABLE IF EXISTS` removes the table and its indexes. -/
def applySchemaOp : SchemaOp → DbStore → DbStore
  | .createTable n, s =>
      if n ∈ s.tables then s else { s with tables := s.tables ++ [n] }
  | .createIndex t n, s =>
      if s.indexes.any (fun p => p.2 = n) then s
      else { s with indexes := s.indexes ++ [(t, n)] }
  | .dropTable n, s =>
      { s with tables := s.tables.filter (fun m => m ≠ n),
               indexes := s.indexes.filter (fun p => p.1 ≠ n) }

/-- Issue a sequence of DDL statements, stopping at the first engine
error (the raised exception propagates). -/
def runSchemaOps (env : ExecEnv) :
    List SchemaOp → DbConn → DbConn × Except ToolError Unit
  | [], c => (c, .ok ())
  | op :: ops, c =>
      match execStep env (fun s => (applySchemaOp op s, ())) c with
      | (c', .ok _) => runSchemaOps env ops c'
      | (c', .error e) => (c', .error e)

/-- The eight statements of `create_tool_tables`, in source order:
documents table, vectors table, then the six indexes. -/
def toolSchemaOps (tool_id : Nat) : List SchemaOp :=
  [ .createTable (docTableName tool_id),
    .createTable (vecTableName tool_id),
    .createIndex (vecTableName tool_id) (idxVecEmbedding tool_id),
    .createIndex (vecTableName tool_id) (idxVecToolDoc tool_id),
    .createIndex (docTableName tool_id) (idxDocTool tool_id),
    .createIndex (docTableName tool_id) (idxDocPathHash tool_id),
    .createIndex (docTableName tool_id) (idxDocToolPath tool_id),
    .createIndex (vecTableName tool_id) (idxVecPosition tool_id) ]

/-- `create_tool_tables`: the eight DDL statements, then `commit()`. -/
def create_tool_tables (env : ExecEnv) (tool_id : Nat) (c : DbConn) :
    DbConn × Except ToolError Unit :=
  match runSchemaOps env (toolSchemaOps tool_id) c with
  | (c', .ok _) => (commitConn c', .ok ())
  | (c', .error e) => (c', .error e)

/-- The two statements of `drop_tool_tables`, in source order: the
vectors table is dropped before the documents table. -/
def dropToolOps (tool_id : Nat) : List SchemaOp :=
  [ .dropTable (vecTableName tool_id), .dropTable (docTableName tool_id) ]

/-- `drop_tool_tables`: the two `DROP TABLE IF EXISTS` statements, then
`commit()`. -/
def drop_tool_tables (env : ExecEnv) (tool_id : Nat) (c : DbConn) :
    DbConn × Except ToolError Unit :=
  match runSchemaOps env (dropToolOps tool_id) c with
  | (c', .ok _) => (commitConn c', .ok ())
  | (c', .error e) => (c', .error e)

/-- The two clock reads the source performs: `utcNow` is the value a
SQLite `CURRENT_TIMESTAMP` default produces (UTC), `localNowIso` is the
value of `datetime.now().isoformat()` (local wall clock, no timezone
designator). -/
structure Clock where
  utcNow : String
  localNowIso : String

/-- The `ValueError` message `f"Tool '{name}' already exists"`. -/
def alreadyExistsMsg (name : String) : String :=
  "Tool '" ++ name ++ "' already exists"

/-- `get_tool_by_name`: `SELECT * FROM tools WHERE name = ?` plus
`fetchone()` — the first row with that exact name, read from the
connection's working view. -/
def get_tool_by_name (env : ExecEnv) (c : DbConn) (name : String) :
    DbConn × Except ToolError (Option Tool) :=
  execStep env (fun s => (s, s.tools.find? (fun t => t.name == name))) c

/-- The row the `INSERT INTO tools ...` statement creates: supplied
columns plus the schema defaults (`is_active` 1, timestamps
`CURRENT_TIMESTAMP`, which SQLite evaluates in UTC). -/
def insertedTool (clock : Clock) (name description resolved_path : String)
    (app_version : Option String) (tid : Nat) : Tool :=
  { id := tid, name := name, description := description,
    source_directory := resolved_path, is_active := true,
    app_version := app_version,
    created_at := clock.utcNow, updated_at := clock.utcNow }

/-- The `INSERT INTO tools ...` statement of `add_tool`: appends the
new row (SQLite AUTOINCREMENT assigns `nextId`) and returns
`cursor.lastrowid`. -/
def insertToolStep (env : ExecEnv) (clock : Clock)
    (name description resolved_path : String) (app_version : Option String)
    (c : DbConn) : DbConn × Except ToolError Nat :=
  execStep env (fun s =>
    ({ s with
        tools := s.tools ++
          [insertedTool clock name description resolved_path
            app_version s.nextId],
        nextId := s.nextId + 1 }, s.nextId)) c

/-- `add_tool`: name validation, directory validation (dispatching the
exception type on the substring `"does not exist"` of the message),
duplicate check, `INSERT`, `create_tool_tables`, `commit()`. -/
def add_tool (env : ExecEnv) (clock : Clock) (c : DbConn)
    (name description source_directory : String)
    (validate_directory : String → Bool × String × String)
    (app_version : Option String) :
    DbConn × Except ToolError Nat :=
  match validateToolName name with
  | some k => (c, .error (.valueError (nameFailureMsg k)))
  | none =>
    match validate_directory source_directory with
    | (is_valid, resolved_path, error_msg) =>
      if is_valid = false then
        if strContains error_msg "does not exist" then
          (c, .error (.fileNotFound error_msg))
        else
          (c, .error (.valueError error_msg))
      else
        match get_tool_by_name env c name with
        | (c1, .error e) => (c1, .error e)
        | (c1, .ok (some _)) =>
            (c1, .error (.valueError (alreadyExistsMsg name)))
        | (c1, .ok none) =>
          match insertToolStep env clock name description resolved_path
              app_version c1 with
          | (c2, .error e) => (c2, .error e)
          | (c2, .ok tool_id) =>
            match create_tool_tables env tool_id c2 with
            | (c3, .error e) => (c3, .error e)
            | (c3, .ok _) => (commitConn c3, .ok tool_id)

/-- The row update performed by `update_tool`'s single `UPDATE`
statement on a row matching the name: supplied fields overwrite,
omitted fields keep their value, `updated_at` is set from
`datetime.now().isoformat()` (the local wall clock). -/
def applyToolUpdate (clock : Clock) (name : String)
    (descField srcField : Option String) (t : Tool) : Tool :=
  if t.name == name then
    { t with
        description := descField.getD t.description,
        source_directory := srcField.getD t.source_directory,
        updated_at := clock.localNowIso }
  else t

/-- The `UPDATE tools SET ... WHERE name = ?` statement of
`update_tool`, followed by `commit()`. -/
def runToolUpdate (env : ExecEnv) (clock : Clock) (c : DbConn)
    (name : String) (descField srcField : Option String) :
    DbConn × Except ToolError Bool :=
  match execStep env (fun s =>
      ({ s with
          tools := s.tools.map (applyToolUpdate clock name descField srcField) },
       ())) c with
  | (c', .error e) => (c', .error e)
  | (c', .ok _) => (commitConn c', .ok true)

/-- `update_tool`: existence check first (returns `false` when the tool
is absent, before any validation), then the optional description field,
then directory validation of the optional source directory, then the
single `UPDATE` — or `true` with no write when no field was supplied. -/
def update_tool (env : ExecEnv) (clock : Clock) (c : DbConn) (name : String)
    (validate_directory : String → Bool × String × String)
    (description source_directory : Option String) :
    DbConn × Except ToolError Bool :=
  match get_tool_by_name env c name with
  | (c1, .error e) => (c1, .error e)
  | (c1, .ok none) => (c1, .ok false)
  | (c1, .ok (some _)) =>
    match source_directory with
    | some sd =>
      match validate_directory sd with
      | (is_valid, resolved_path, error_msg) =>
        if is_valid = false then
          if strContains error_msg "does not exist" then
            (c1, .error (.fileNotFound error_msg))
          else
            (c1, .error (.valueError error_msg))
        else
          runToolUpdate env clock c1 name description (some resolved_path)
    | none =>
      match description with
      | none => (c1, .ok true)
      | some _ => runToolUpdate env clock c1 name description none

/-- The `DELETE FROM tools WHERE name = ?` statement of `delete_tool`. -/
def deleteRowStep (env : ExecEnv) (name : String) (c : DbConn) :
    DbConn × Except ToolError Unit :=
  execStep env (fun s =>
    ({ s with tools := s.tools.filter (fun t => !(t.name == name)) }, ())) c

/-- `delete_tool`: existence check, `drop_tool_tables` for the found
row's id, `DELETE FROM tools WHERE name = ?`, `commit()`. -/
def delete_tool (env : ExecEnv) (c : DbConn) (name : String) :
    DbConn × Except ToolError Bool :=
  match get_tool_by_name env c name with
  | (c1, .error e) => (c1, .error e)
  | (c1, .ok none) => (c1, .ok false)
  | (c1, .ok (some tool)) =>
    match drop_tool_tables env tool.id c1 with
    | (c2, .error e) => (c2, .error e)
    | (c2, .ok _) =>
      match deleteRowStep env name c2 with
      | (c3, .error e) => (c3, .error e)
      | (c3, .ok _) => (commitConn c3, .ok true)

/-- `_set_tool_active_status`: existence check, then
`UPDATE tools SET is_active = ?, updated_at = ? WHERE name = ?` with
`datetime.now().isoformat()`, then `commit()`. -/
def set_tool_active_status (env : ExecEnv) (clock : Clock) (c : DbConn)
    (name : String) (is_active : Bool) : DbConn × Except ToolError Bool :=
  match get_tool_by_name env c name with
  | (c1, .error e) => (c1, .error e)
  | (c1, .ok none) => (c1, .ok false)
  | (c1, .ok (some _)) =>
    match execStep env (fun s =>
        ({ s with tools := s.tools.map (fun t =>
            if t.name == name then
              { t with is_active := is_active,
                       updated_at := clock.localNowIso }
            else t) }, ())) c1 with
    | (c2, .error e) => (c2, .error e)
    | (c2, .ok _) => (commitConn c2, .ok true)

/-- `enable_tool`. -/
def enable_tool (env : ExecEnv) (clock : Clock) (c : DbConn) (name : String) :
    DbConn × Except ToolError Bool :=
  set_tool_active_status env clock c name true

/-- `disable_tool`. -/
def disable_tool (env : ExecEnv) (clock : Clock) (c : DbConn) (name : String) :
    DbConn × Except ToolError Bool :=
  set_tool_active_status env clock c name false

/-- `DatabaseConnection.__exit__` around a body (`with db_conn:` in
`main.py`): commit on normal exit, rollback when an exception left the
block (the close that follows does not change the stores). -/
def with_db_conn {α : Type} (c : DbConn)
    (body : DbConn → DbConn × Except ToolError α) :
    DbConn × Except ToolError α :=
  match body c with
  | (c', .ok a) => (commitConn c', .ok a)
  | (c', .error e) => (rollbackConn c', .error e)

/-- Oracle under which every statement succeeds. -/
def allOk : ExecEnv := { execOk := fun _ => true }

/-- Oracle under which the first two statements succeed and every later
one fails: the SELECT of the duplicate check and the registry INSERT go
through, the first schema-provisioning statement raises. -/
def failFromTwo : ExecEnv := { execOk := fun k => decide (k < 2) }

/-- Oracle under which only the first statement succeeds. -/
def failFromOne : ExecEnv := { execOk := fun k => decide (k < 1) }

/-- A directory validator that accepts every path as already resolved. -/
def trivialVd : String → Bool × String × String := fun s => (true, s, "")

/-- A directory validator that rejects every path as nonexistent. -/
def missingDirVd : String → Bool × String × String :=
  fun s => (false, "", "Directory does not exist: " ++ s)

/-- A clock on a UTC+9 host: the local wall clock reads nine hours
ahead of UTC. -/
def sampleClock : Clock :=
  { utcNow := "2026-10-12 00:00:00", localNowIso := "2026-10-12T09:00:00" }

/-- A freshly initialized database: no tools, no per-tool tables. -/
def emptyStore : DbStore := { tools := [], nextId := 1, tables := [], indexes := [] }

/-- A connection onto the fresh database. -/
def freshConn : DbConn := { committed := emptyStore, working := emptyStore, execCount := 0 }

/-- A registered tool named `t1` with id 1. -/
def tool1 : Tool :=
  { id := 1, name := "t1", description := "d", source_directory := "/data/docs",
    is_active := true, app_version := none,
    created_at := "2026-10-11 00:00:00", updated_at := "2026-10-11 00:00:00" }

/-- A database holding exactly `tool1` with its provisioned schema. -/
def store1 : DbStore :=
  { tools := [tool1], nextId := 2,
    tables := [docTableName 1, vecTableName 1],
    indexes := [ (vecTableName 1, idxVecEmbedding 1),
                 (vecTableName 1, idxVecToolDoc 1),
                 (docTableName 1, idxDocTool 1),
                 (docTableName 1, idxDocPathHash 1),
                 (docTableName 1, idxDocToolPath 1),
                 (vecTableName 1, idxVecPosition 1) ] }

/-- A connection onto the one-tool database. -/
def conn1 : DbConn := { committed := store1, working := store1, execCount := 0 }

/-- A filesystem in which `/data/docs` is an existing directory. -/
def dirFs : FileSystem :=
  { resolve := fun p => .ok p,
    kind := fun p => if p = "/data/docs" then .dir else .missing }

/-- A filesystem in which the path `/data/does not exist` resolves to
an existing regular file — a legal path whose text happens to contain
the words `does not exist`. -/
def fileFs : FileSystem :=
  { resolve := fun p => .ok p,
    kind := fun p => if p = "/data/does not exist" then .file else .missing }

/-- The working store right after the `INSERT` of `add_tool`: the new
row appended, the id counter advanced, schema untouched. -/
def storeAfterInsert (clock : Clock)
    (name description resolved_path : String) (app_version : Option String)
    (s : DbStore) : DbStore :=
  { tools := s.tools ++
      [insertedTool clock name description resolved_path app_version s.nextId],
    nextId := s.nextId + 1, tables := s.tables, indexes := s.indexes }

/-- The connection right after the duplicate-check SELECT and the
`INSERT` of `add_tool` both succeeded. -/
def connAfterInsert (clock : Clock)
    (name description resolved_path : String) (app_version : Option String)
    (c : DbConn) : DbConn :=
  { committed := c.committed,
    working := storeAfterInsert clock name description resolved_path
      app_version c.working,
    execCount := c.execCount + 2 }

/-! Helper lemmas about the connection model. -/

theorem execStep_of_ok {α : Type} (env : ExecEnv) (f : DbStore → DbStore × α)
    (c : DbConn) (h : env.execOk c.execCount = true) :
    execStep env f c
      = ({ c with working := (f c.working).1, execCount := c.execCount + 1 },
         .ok (f c.working).2) := by
  simp [execStep, h]

theorem execStep_of_err {α : Type} (env : ExecEnv) (f : DbStore → DbStore × α)
    (c : DbConn) (h : env.execOk c.execCount = false) :
    execStep env f c
      = ({ c with execCount := c.execCount + 1 }, .error .storageError) := by
  simp [execStep, h]

theorem execStep_committed {α : Type} (env : ExecEnv)
    (f : DbStore → DbStore × α) (c : DbConn) :
    ((execStep env f c).1).committed = c.committed := by
  unfold execStep
  split <;> rfl

theorem applySchemaOp_tools : ∀ (op : SchemaOp) (s : DbStore),
    (applySchemaOp op s).tools = s.tools
  | .createTable n, s => by
      simp only [applySchemaOp]; split <;> rfl
  | .createIndex t n, s => by
      simp only [applySchemaOp]; split <;> rfl
  | .dropTable n, s => rfl

theorem applySchemaOp_nextId : ∀ (op : SchemaOp) (s : DbStore),
    (applySchemaOp op s).nextId = s.nextId
  | .createTable n, s => by
      simp only [applySchemaOp]; split <;> rfl
  | .createIndex t n, s => by
      simp only [applySchemaOp]; split <;> rfl
  | .dropTable n, s => rfl

theorem runSchemaOps_committed (env : ExecEnv) :
    ∀ (ops : List SchemaOp) (c : DbConn),
      ((runSchemaOps env ops c).1).committed = c.committed
  | [], _ => rfl
  | op :: ops, c => by
      simp only [runSchemaOps]
      cases h : env.execOk c.execCount with
      | false => rw [execStep_of_err env _ c h]
      | true =>
          rw [execStep_of_ok env _ c h]
          exact runSchemaOps_committed env ops _

theorem runSchemaOps_tools (env : ExecEnv) :
    ∀ (ops : List SchemaOp) (c : DbConn),
      ((runSchemaOps env ops c).1).working.tools = c.working.tools
  | [], _ => rfl
  | op :: ops, c => by
      simp only [runSchemaOps]
      cases h : env.execOk c.execCount with
      | false => rw [execStep_of_err env _ c h]
      | true =>
          rw [execStep_of_ok env _ c h]
          exact (runSchemaOps_tools env ops _).trans
            (applySchemaOp_tools op c.working)

theorem runSchemaOps_nextId (env : ExecEnv) :
    ∀ (ops : List SchemaOp) (c : DbConn),
      ((runSchemaOps env ops c).1).working.nextId = c.working.nextId
  | [], _ => rfl
  | op :: ops, c => by
      simp only [runSchemaOps]
      cases h : env.execOk c.execCount with
      | false => rw [execStep_of_err env _ c h]
      | true =>
          rw [execStep_of_ok env _ c h]
          exact (runSchemaOps_nextId env ops _).trans
            (applySchemaOp_nextId op c.working)

theorem runSchemaOps_ok_or_err (env : ExecEnv) :
    ∀ (ops : List SchemaOp) (c : DbConn),
      (runSchemaOps env ops c).2 = .ok ()
        ∨ (runSchemaOps env ops c).2 = .error .storageError
  | [], _ => .inl rfl
  | op :: ops, c => by
      simp only [runSchemaOps]
      cases h : env.execOk c.execCount with
      | false => rw [execStep_of_err env _ c h]; exact .inr rfl
      | true =>
          rw [execStep_of_ok env _ c h]
          exact runSchemaOps_ok_or_err env ops _

theorem runSchemaOps_ok_oracle (env : ExecEnv) :
    ∀ (ops : List SchemaOp) (c : DbConn),
      (runSchemaOps env ops c).2 = .ok () →
      ∀ j, j < ops.length → env.execOk (c.execCount + j) = true
  | [], c => by
      intro _ j hj
      simp at hj
  | op :: ops, c => by
      intro hok j hj
      simp only [runSchemaOps] at hok
      cases h : env.execOk c.execCount with
      | false =>
          rw [execStep_of_err env _ c h] at hok
          simp at hok
      | true =>
          rw [execStep_of_ok env _ c h] at hok
          cases j with
          | zero => simpa using h
          | succ j =>
              have hj' : j < ops.length := by
                simpa [Nat.succ_lt_succ_iff] using hj
              have h2 := runSchemaOps_ok_oracle env ops _ hok j hj'
              have h3 : c.execCount + (j + 1) = c.execCount + 1 + j := by omega
              rw [h3]
              exact h2

theorem runSchemaOps_of_allOk (env : ExecEnv)
    (henv : ∀ k, env.execOk k = true) :
    ∀ (ops : List SchemaOp) (c : DbConn),
      (runSchemaOps env ops c).2 = .ok ()
  | [], _ => rfl
  | op :: ops, c => by
      simp only [runSchemaOps]
      rw [execStep_of_ok env _ c (henv _)]
      exact runSchemaOps_of_allOk env henv ops _

theorem runSchemaOps_allOk_working (env : ExecEnv)
    (henv : ∀ k, env.execOk k = true) :
    ∀ (ops : List SchemaOp) (c : DbConn),
      ((runSchemaOps env ops c).1).working
        = ops.foldl (fun s op => applySchemaOp op s) c.working
  | [], _ => rfl
  | op :: ops, c => by
      simp only [runSchemaOps]
      rw [execStep_of_ok env _ c (henv _)]
      exact runSchemaOps_allOk_working env henv ops _

/-! String facts about the generated table and index names. -/

theorem string_append_cancel (a s t : String) (h : a ++ s = a ++ t) :
    s = t := by
  have h2 : a.data ++ s.data = a.data ++ t.data := by
    rw [← String.data_append, ← String.data_append, h]
  have h3 : s.data = t.data := List.append_cancel_left h2
  cases s
  cases t
  exact congrArg String.mk h3

theorem strNe_of_length (a b : String) (h : a.length ≠ b.length) :
    a ≠ b :=
  fun hc => h (congrArg String.length hc)

theorem vec_ne_doc_table (tool_id : Nat) :
    vecTableName tool_id ≠ docTableName tool_id := by
  apply strNe_of_length
  simp only [vecTableName, docTableName, String.length_append]
  have h8 : ("vectors_" : String).length = 8 := rfl
  have h10 : ("documents_" : String).length = 10 := rfl
  omega

theorem strNe_of_parts (p q s t x : String)
    (h : p.length + s.length ≠ q.length + t.length) :
    ¬ (p ++ x ++ s = q ++ x ++ t) := by
  intro hc
  have h2 := congrArg String.length hc
  rw [String.length_append, String.length_append, String.length_append,
      String.length_append] at h2
  omega

theorem strNe_of_suffix (p x s t : String) (h : s ≠ t) :
    ¬ (p ++ x ++ s = p ++ x ++ t) :=
  fun hc => h (string_append_cancel (p ++ x) s t hc)

/-- The six per-tool index names are pairwise distinct (each earlier
name compared with each later one, in creation order). -/
theorem toolIndexNames_pairwise_ne (tool_id : Nat) :
    ¬ (idxVecEmbedding tool_id = idxVecToolDoc tool_id)
    ∧ ¬ (idxVecEmbedding tool_id = idxDocTool tool_id)
    ∧ ¬ (idxVecEmbedding tool_id = idxDocPathHash tool_id)
    ∧ ¬ (idxVecEmbedding tool_id = idxDocToolPath tool_id)
    ∧ ¬ (idxVecEmbedding tool_id = idxVecPosition tool_id)
    ∧ ¬ (idxVecToolDoc tool_id = idxDocTool tool_id)
    ∧ ¬ (idxVecToolDoc tool_id = idxDocPathHash tool_id)
    ∧ ¬ (idxVecToolDoc tool_id = idxDocToolPath tool_id)
    ∧ ¬ (idxVecToolDoc tool_id = idxVecPosition tool_id)
    ∧ ¬ (idxDocTool tool_id = idxDocPathHash tool_id)
    ∧ ¬ (idxDocTool tool_id = idxDocToolPath tool_id)
    ∧ ¬ (idxDocTool tool_id = idxVecPosition tool_id)
    ∧ ¬ (idxDocPathHash tool_id = idxDocToolPath tool_id)
    ∧ ¬ (idxDocPathHash tool_id = idxVecPosition tool_id)
    ∧ ¬ (idxDocToolPath tool_id = idxVecPosition tool_id) := by
  simp only [idxVecEmbedding, idxVecToolDoc, idxDocTool, idxDocPathHash,
    idxDocToolPath, idxVecPosition]
  refine ⟨?_, ?_, ?_, ?_, ?_, ?_, ?_, ?_, ?_, ?_, ?_, ?_, ?_, ?_, ?_⟩
  · exact strNe_of_suffix _ _ _ _ (by decide)
  · exact strNe_of_parts _ _ _ _ _ (by decide)
  · exact strNe_of_parts _ _ _ _ _ (by decide)
  · exact strNe_of_parts _ _ _ _ _ (by decide)
  · exact strNe_of_suffix _ _ _ _ (by decide)
  · exact strNe_of_parts _ _ _ _ _ (by decide)
  · exact strNe_of_parts _ _ _ _ _ (by decide)
  · exact strNe_of_parts _ _ _ _ _ (by decide)
  · exact strNe_of_suffix _ _ _ _ (by decide)
  · exact strNe_of_parts _ _ _ _ _ (by decide)
  · exact strNe_of_parts _ _ _ _ _ (by decide)
  · exact strNe_of_parts _ _ _ _ _ (by decide)
  · exact strNe_of_suffix _ _ _ _ (by decide)
  · exact strNe_of_parts _ _ _ _ _ (by decide)
  · exact strNe_of_parts _ _ _ _ _ (by decide)

/-- Effect of the eight provisioning statements on an empty schema. -/
theorem provision_foldl (tool_id : Nat) (s : DbStore)
    (hT : s.tables = []) (hI : s.indexes = []) :
    (toolSchemaOps tool_id).foldl (fun s op => applySchemaOp op s) s
      = { s with
          tables := [docTableName tool_id, vecTableName tool_id],
          indexes := [ (vecTableName tool_id, idxVecEmbedding tool_id),
                       (vecTableName tool_id, idxVecToolDoc tool_id),
                       (docTableName tool_id, idxDocTool tool_id),
                       (docTableName tool_id, idxDocPathHash tool_id),
                       (docTableName tool_id, idxDocToolPath tool_id),
                       (vecTableName tool_id, idxVecPosition tool_id) ] } := by
  obtain ⟨h12, h13, h14, h15, h16, h23, h24, h25, h26, h34, h35, h36,
    h45, h46, h56⟩ := toolIndexNames_pairwise_ne tool_id
  have hvd := vec_ne_doc_table tool_id
  simp [toolSchemaOps, applySchemaOp, hT, hI, hvd,
    h12, h13, h14, h15, h16, h23, h24, h25, h26, h34, h35, h36, h45, h46, h56]

/-- The eight provisioning statements leave an already provisioned
schema unchanged (`CREATE ... IF NOT EXISTS`). -/
theorem provision_foldl_idem (tool_id : Nat) (s : DbStore)
    (hT : s.tables = [docTableName tool_id, vecTableName tool_id])
    (hI : s.indexes = [ (vecTableName tool_id, idxVecEmbedding tool_id),
                        (vecTableName tool_id, idxVecToolDoc tool_id),
                        (docTableName tool_id, idxDocTool tool_id),
                        (docTableName tool_id, idxDocPathHash tool_id),
                        (docTableName tool_id, idxDocToolPath tool_id),
                        (vecTableName tool_id, idxVecPosition tool_id) ]) :
    (toolSchemaOps tool_id).foldl (fun s op => applySchemaOp op s) s = s := by
  simp [toolSchemaOps, applySchemaOp, hT, hI]

/-! The claims. -/

/-- C3: the claim says name validation succeeds exactly on strings
matching `[A-Za-z0-9_-]{1,64}` and that any string containing a
character outside that class fails with `InvalidCharacters`.  The code
violates this: its regex `^[a-zA-Z0-9_-]+$` is anchored with `$`, which
in Python also matches just before a trailing newline, so the name
`"abc\n"` — which contains the newline character, outside the class —
passes validation. -/
theorem nameValidation_accepts_trailing_newline :
    validateToolName "abc\n" = none
    ∧ '\n' ∈ "abc\n".data
    ∧ isValidNameChar '\n' = false := by
  decide

/-- C7 counterexample: the claim says provisioning creates five
indexes, but provisioning tool id 0 on a fresh database creates six. -/
theorem provision_creates_six_indexes :
    ((create_tool_tables allOk 0 freshConn).1).working.indexes.length = 6
    ∧ ¬ (((create_tool_tables allOk 0 freshConn).1).working.indexes.length = 5) := by
  decide

/-- C7 (amended): for every tool id, provisioning on an empty schema
idempotently creates exactly one document table and one vector table
scoped to that id, plus six indexes — document-by-tool, document unique
(tool, path, hash), document by (tool, path), vector by embedding,
vector by (tool, document), vector by (document, start, end); running
it twice leaves the schema identical to running it once. -/
theorem create_tool_tables_schema (tool_id : Nat) (c : DbConn)
    (hT : c.working.tables = []) (hI : c.working.indexes = []) :
    (create_tool_tables allOk tool_id c).2 = .ok ()
    ∧ ((create_tool_tables allOk tool_id c).1).working.tables
        = [docTableName tool_id, vecTableName tool_id]
    ∧ ((create_tool_tables allOk tool_id c).1).working.indexes
        = [ (vecTableName tool_id, idxVecEmbedding tool_id),
            (vecTableName tool_id, idxVecToolDoc tool_id),
            (docTableName tool_id, idxDocTool tool_id),
            (docTableName tool_id, idxDocPathHash tool_id),
            (docTableName tool_id, idxDocToolPath tool_id),
            (vecTableName tool_id, idxVecPosition tool_id) ]
    ∧ ((create_tool_tables allOk tool_id c).1).working.tools = c.working.tools
    ∧ ((create_tool_tables allOk tool_id
          ((create_tool_tables allOk tool_id c).1)).1).working
        = ((create_tool_tables allOk tool_id c).1).working := by
  have henv : ∀ k, allOk.execOk k = true := fun _ => rfl
  rcases hrun : runSchemaOps allOk (toolSchemaOps tool_id) c with ⟨cd, rd⟩
  have hok := runSchemaOps_of_allOk allOk henv (toolSchemaOps tool_id) c
  rw [hrun] at hok
  simp only at hok
  subst hok
  have hw := runSchemaOps_allOk_working allOk henv (toolSchemaOps tool_id) c
  rw [hrun] at hw
  simp only at hw
  rw [provision_foldl tool_id c.working hT hI] at hw
  have hct : create_tool_tables allOk tool_id c = (commitConn cd, .ok ()) := by
    simp only [create_tool_tables]
    rw [hrun]
  rw [hct]
  refine ⟨rfl, ?_, ?_, ?_, ?_⟩
  · show cd.working.tables = _
    rw [hw]
  · show cd.working.indexes = _
    rw [hw]
  · show cd.working.tools = _
    rw [hw]
  · -- second run: the already provisioned schema is left unchanged
    rcases hrun2 : runSchemaOps allOk (toolSchemaOps tool_id) (commitConn cd)
      with ⟨cd2, rd2⟩
    have hok2 := runSchemaOps_of_allOk allOk henv (toolSchemaOps tool_id)
      (commitConn cd)
    rw [hrun2] at hok2
    simp only at hok2
    subst hok2
    have hw2 := runSchemaOps_allOk_working allOk henv (toolSchemaOps tool_id)
      (commitConn cd)
    rw [hrun2] at hw2
    simp only at hw2
    have hidem : (toolSchemaOps tool_id).foldl
        (fun s op => applySchemaOp op s) (commitConn cd).working
        = (commitConn cd).working := by
      apply provision_foldl_idem
      · show cd.working.tables = _
        rw [hw]
      · show cd.working.indexes = _
        rw [hw]
    rw [hidem] at hw2
    have hct2 : create_tool_tables allOk tool_id (commitConn cd)
        = (commitConn cd2, .ok ()) := by
      simp only [create_tool_tables]
      rw [hrun2]
    rw [hct2]
    show cd2.working = cd.working
    rw [hw2]
    rfl

/-- C7 witness: the amended provisioning theorem evaluated on the
fresh database with tool id 3. -/
theorem create_tool_tables_schema_witness :
    (create_tool_tables allOk 3 freshConn).2 = .ok ()
    ∧ ((create_tool_tables allOk 3 freshConn).1).working.tables
        = [docTableName 3, vecTableName 3]
    ∧ ((create_tool_tables allOk 3 freshConn).1).working.indexes
        = [ (vecTableName 3, idxVecEmbedding 3),
            (vecTableName 3, idxVecToolDoc 3),
            (docTableName 3, idxDocTool 3),
            (docTableName 3, idxDocPathHash 3),
            (docTableName 3, idxDocToolPath 3),
            (vecTableName 3, idxVecPosition 3) ]
    ∧ ((create_tool_tables allOk 3 freshConn).1).working.tools
        = freshConn.working.tools
    ∧ ((create_tool_tables allOk 3
          ((create_tool_tables allOk 3 freshConn).1)).1).working
        = ((create_tool_tables allOk 3 freshConn).1).working :=
  create_tool_tables_schema 3 freshConn rfl rfl

/-- C8: the spec distinguishes `NotADirectory` from `DirectoryNotFound`,
but `add_tool` dispatches the exception type on whether the message
contains the substring `"does not exist"`.  For a path that resolves to
an existing regular file and whose text contains those words, the
not-a-directory failure is raised as `FileNotFoundError` — the
`DirectoryNotFound` surface — instead of `ValueError`. -/
theorem notADirectory_surfaces_as_directoryNotFound :
    validate_directory_path fileFs "/data/does not exist"
      = (false, "", "Path is not a directory: /data/does not exist")
    ∧ (add_tool allOk sampleClock freshConn "t1" "d" "/data/does not exist"
        (validate_directory_path fileFs) none).2
      = .error (.fileNotFound "Path is not a directory: /data/does not exist") :=
  ⟨rfl, rfl⟩

/-- C9: `update_tool` and `disable_tool` stamp `updated_at` from
`datetime.now().isoformat()` — the local wall clock — not from UTC: on
a UTC+9 host the stored `updated_at` is the local time, which differs
from the UTC time the claim requires. -/
theorem updatedAt_written_from_local_clock :
    ((update_tool allOk sampleClock conn1 "t1" trivialVd
        (some "new") none).1).working.tools
      = [{ tool1 with description := "new", updated_at := sampleClock.localNowIso }]
    ∧ ((disable_tool allOk sampleClock conn1 "t1").1).working.tools
      = [{ tool1 with is_active := false, updated_at := sampleClock.localNowIso }]
    ∧ ¬ (sampleClock.localNowIso = sampleClock.utcNow) := by
  refine ⟨rfl, rfl, by decide⟩

/-- C10: for every absent name, `update_tool` returns false right after
the existence SELECT, for every directory validator and every supplied
fields — in particular an invalid or nonexistent source directory never
reaches validation — and nothing is written: only the statement counter
of the connection advances. -/
theorem update_absent_tool_returns_false
    (env : ExecEnv) (clock : Clock) (c : DbConn) (name : String)
    (vd : String → Bool × String × String)
    (description source_directory : Option String)
    (hsel : env.execOk c.execCount = true)
    (habsent : c.working.tools.find? (fun t => t.name == name) = none) :
    update_tool env clock c name vd description source_directory
      = ({ c with execCount := c.execCount + 1 }, .ok false) := by
  simp only [update_tool, get_tool_by_name]
  rw [execStep_of_ok env _ c hsel]
  simp [habsent]

/-- C10 witness: updating the unregistered name `ghost` with a
validator that rejects everything and a nonexistent directory still
returns false instead of raising. -/
theorem update_absent_tool_returns_false_witness :
    update_tool allOk sampleClock freshConn "ghost" missingDirVd
        (some "x") (some "/nope")
      = ({ freshConn with execCount := 1 }, .ok false) :=
  update_absent_tool_returns_false allOk sampleClock freshConn "ghost"
    missingDirVd (some "x") (some "/nope") rfl rfl

/-- C2: adding a tool whose (valid) name is already registered — exact,
case-sensitive match — fails with the `AlreadyExists` `ValueError` and
leaves both the working and the committed store untouched: only the
statement counter of the duplicate-check SELECT advances. -/
theorem add_existing_name_fails_unchanged
    (env : ExecEnv) (clock : Clock) (c : DbConn)
    (name description source_directory : String)
    (vd : String → Bool × String × String) (app_version : Option String)
    (hname : validateToolName name = none)
    (hdir : (vd source_directory).1 = true)
    (hsel : env.execOk c.execCount = true)
    (hreg : ∃ t ∈ c.working.tools, t.name = name) :
    add_tool env clock c name description source_directory vd app_version
      = ({ c with execCount := c.execCount + 1 },
         .error (.valueError (alreadyExistsMsg name))) := by
  obtain ⟨t0, ht0, hname0⟩ := hreg
  have hfind : ∃ u, c.working.tools.find? (fun t => t.name == name) = some u := by
    cases hf : c.working.tools.find? (fun t => t.name == name) with
    | some u => exact ⟨u, rfl⟩
    | none =>
        have h2 := List.find?_eq_none.mp hf t0 ht0
        simp [hname0] at h2
  obtain ⟨u, hu⟩ := hfind
  rcases hvd : vd source_directory with ⟨iv, rp, em⟩
  rw [hvd] at hdir
  simp only at hdir
  subst hdir
  simp only [add_tool, hname, hvd, get_tool_by_name]
  rw [execStep_of_ok env _ c hsel]
  simp [hu]

/-- C2 witness: re-adding `t1` against the one-tool database fails with
the already-exists error and returns the store unchanged. -/
theorem add_existing_name_fails_unchanged_witness :
    add_tool allOk sampleClock conn1 "t1" "other" "/data/docs" trivialVd none
      = ({ conn1 with execCount := 1 },
         .error (.valueError (alreadyExistsMsg "t1"))) :=
  add_existing_name_fails_unchanged allOk sampleClock conn1 "t1" "other"
    "/data/docs" trivialVd none (by decide) rfl rfl (by decide)

/-- C6: first part — updating only the description of a registered tool
rewrites each matching row to the same row with just `description` and
`updated_at` replaced (every other field of that row, and every
non-matching row, kept verbatim), and touches no tables, indexes or the
id counter.  Second part — an update with no fields supplied returns
true right after the existence SELECT without writing anything. -/
theorem update_description_only_frame :
    (∀ (env : ExecEnv) (clock : Clock) (c : DbConn) (name d : String)
       (vd : String → Bool × String × String) (t : Tool),
      (∀ k, env.execOk k = true) →
      c.working.tools.find? (fun u => u.name == name) = some t →
      (update_tool env clock c name vd (some d) none).2 = .ok true
      ∧ ((update_tool env clock c name vd (some d) none).1).working.tools
          = c.working.tools.map (fun u =>
              if u.name = name
              then { u with description := d, updated_at := clock.localNowIso }
              else u)
      ∧ ((update_tool env clock c name vd (some d) none).1).working.tables
          = c.working.tables
      ∧ ((update_tool env clock c name vd (some d) none).1).working.indexes
          = c.working.indexes
      ∧ ((update_tool env clock c name vd (some d) none).1).working.nextId
          = c.working.nextId)
    ∧ (∀ (env : ExecEnv) (clock : Clock) (c : DbConn) (name : String)
         (vd : String → Bool × String × String) (t : Tool),
        env.execOk c.execCount = true →
        c.working.tools.find? (fun u => u.name == name) = some t →
        update_tool env clock c name vd none none
          = ({ c with execCount := c.execCount + 1 }, .ok true)) := by
  constructor
  · intro env clock c name d vd t henv hfind
    have h1 : get_tool_by_name env c name
        = ({ c with execCount := c.execCount + 1 }, .ok (some t)) := by
      simp only [get_tool_by_name]
      rw [execStep_of_ok env _ c (henv _)]
      simp [hfind]
    have h3 : update_tool env clock c name vd (some d) none
        = (commitConn { c with
            working := { c.working with
              tools := c.working.tools.map
                (applyToolUpdate clock name (some d) none) },
            execCount := c.execCount + 2 }, .ok true) := by
      simp only [update_tool, h1, runToolUpdate]
      rw [execStep_of_ok env _ _ (henv _)]
    have hfe : applyToolUpdate clock name (some d) none
        = (fun u : Tool =>
            if u.name = name
            then { u with description := d, updated_at := clock.localNowIso }
            else u) := by
      funext u
      by_cases h : u.name = name <;> simp [applyToolUpdate, h]
    rw [h3, hfe]
    exact ⟨rfl, rfl, rfl, rfl, rfl⟩
  · intro env clock c name vd t hsel hfind
    have h1 : get_tool_by_name env c name
        = ({ c with execCount := c.execCount + 1 }, .ok (some t)) := by
      simp only [get_tool_by_name]
      rw [execStep_of_ok env _ c hsel]
      simp [hfind]
    simp only [update_tool, h1]

/-- C6 witness: both parts of the update frame theorem evaluated on the
one-tool database. -/
theorem update_description_only_frame_witness :
    ((update_tool allOk sampleClock conn1 "t1" trivialVd (some "new") none).2
        = .ok true
      ∧ ((update_tool allOk sampleClock conn1 "t1" trivialVd
            (some "new") none).1).working.tools
          = conn1.working.tools.map (fun u =>
              if u.name = "t1"
              then { u with description := "new",
                            updated_at := sampleClock.localNowIso }
              else u)
      ∧ ((update_tool allOk sampleClock conn1 "t1" trivialVd
            (some "new") none).1).working.tables = conn1.working.tables
      ∧ ((update_tool allOk sampleClock conn1 "t1" trivialVd
            (some "new") none).1).working.indexes = conn1.working.indexes
      ∧ ((update_tool allOk sampleClock conn1 "t1" trivialVd
            (some "new") none).1).working.nextId = conn1.working.nextId)
    ∧ update_tool allOk sampleClock conn1 "t1" trivialVd none none
        = ({ conn1 with execCount := 1 }, .ok true) :=
  ⟨update_description_only_frame.1 allOk sampleClock conn1 "t1" "new"
      trivialVd tool1 (fun _ => rfl) (by decide),
   update_description_only_frame.2 allOk sampleClock conn1 "t1"
      trivialVd tool1 rfl (by decide)⟩

/-- C5: first part — deleting a registered tool returns true, removes
its registry row, leaves neither of its per-tool tables, and a
subsequent `get_tool_by_name` finds nothing.  Second part — the
`DROP TABLE IF EXISTS` semantics is idempotent on the schema.  Third
part — the vectors table is dropped before the documents table: when
the engine fails on the second statement, the vectors table is already
gone while the documents table is still present.  Fourth part —
deleting an unregistered name returns false with the store unchanged. -/
theorem delete_tool_removes_row_and_tables :
    (∀ (env : ExecEnv) (c : DbConn) (name : String) (t : Tool),
      (∀ k, env.execOk k = true) →
      c.working.tools.find? (fun u => u.name == name) = some t →
      (delete_tool env c name).2 = .ok true
      ∧ ((delete_tool env c name).1).working.tools
          = c.working.tools.filter (fun u => !(u.name == name))
      ∧ vecTableName t.id ∉ ((delete_tool env c name).1).working.tables
      ∧ docTableName t.id ∉ ((delete_tool env c name).1).working.tables
      ∧ (get_tool_by_name env ((delete_tool env c name).1) name).2 = .ok none)
    ∧ (∀ (n : String) (s : DbStore),
        applySchemaOp (.dropTable n) (applySchemaOp (.dropTable n) s)
          = applySchemaOp (.dropTable n) s)
    ∧ (∀ (env : ExecEnv) (c : DbConn) (tool_id : Nat),
        env.execOk c.execCount = true →
        env.execOk (c.execCount + 1) = false →
        (drop_tool_tables env tool_id c).2 = .error .storageError
        ∧ vecTableName tool_id
            ∉ ((drop_tool_tables env tool_id c).1).working.tables
        ∧ (docTableName tool_id ∈ c.working.tables →
            docTableName tool_id
              ∈ ((drop_tool_tables env tool_id c).1).working.tables))
    ∧ (∀ (env : ExecEnv) (c : DbConn) (name : String),
        env.execOk c.execCount = true →
        c.working.tools.find? (fun u => u.name == name) = none →
        delete_tool env c name
          = ({ c with execCount := c.execCount + 1 }, .ok false)) := by
  refine ⟨?_, ?_, ?_, ?_⟩
  · intro env c name t henv hfind
    have h1 : get_tool_by_name env c name
        = ({ c with execCount := c.execCount + 1 }, .ok (some t)) := by
      simp only [get_tool_by_name]
      rw [execStep_of_ok env _ c (henv _)]
      simp [hfind]
    rcases hrun : runSchemaOps env (dropToolOps t.id)
        ({ c with execCount := c.execCount + 1 }) with ⟨cd, rd⟩
    have hok := runSchemaOps_of_allOk env henv (dropToolOps t.id)
      ({ c with execCount := c.execCount + 1 })
    rw [hrun] at hok
    dsimp only at hok
    subst hok
    have hw := runSchemaOps_allOk_working env henv (dropToolOps t.id)
      ({ c with execCount := c.execCount + 1 })
    rw [hrun] at hw
    dsimp only at hw
    have hfold : (dropToolOps t.id).foldl
        (fun s op => applySchemaOp op s) c.working
        = { tools := c.working.tools, nextId := c.working.nextId,
            tables := (c.working.tables.filter
                (fun m => m ≠ vecTableName t.id)).filter
                (fun m => m ≠ docTableName t.id),
            indexes := (c.working.indexes.filter
                (fun p => p.1 ≠ vecTableName t.id)).filter
                (fun p => p.1 ≠ docTableName t.id) } := by
      simp [dropToolOps, applySchemaOp]
    have hw2 : cd.working
        = { tools := c.working.tools, nextId := c.working.nextId,
            tables := (c.working.tables.filter
                (fun m => m ≠ vecTableName t.id)).filter
                (fun m => m ≠ docTableName t.id),
            indexes := (c.working.indexes.filter
                (fun p => p.1 ≠ vecTableName t.id)).filter
                (fun p => p.1 ≠ docTableName t.id) } := hw.trans hfold
    have hdrop : drop_tool_tables env t.id
        ({ c with execCount := c.execCount + 1 }) = (commitConn cd, .ok ()) := by
      simp only [drop_tool_tables]
      rw [hrun]
    have h4 : deleteRowStep env name (commitConn cd)
        = ({ commitConn cd with
              working := { cd.working with
                tools := cd.working.tools.filter (fun u => !(u.name == name)) },
              execCount := cd.execCount + 1 }, .ok ()) := by
      simp only [deleteRowStep]
      rw [execStep_of_ok env _ _ (henv _)]
      rfl
    have hdel : delete_tool env c name
        = (commitConn { commitConn cd with
              working := { cd.working with
                tools := cd.working.tools.filter (fun u => !(u.name == name)) },
              execCount := cd.execCount + 1 }, .ok true) := by
      simp only [delete_tool, h1, hdrop, h4]
    rw [hdel]
    refine ⟨rfl, ?_, ?_, ?_, ?_⟩
    · show cd.working.tools.filter _ = _
      rw [hw2]
    · show vecTableName t.id ∉
        ({ cd.working with
            tools := cd.working.tools.filter (fun u => !(u.name == name)) }).tables
      rw [hw2]
      simp [List.mem_filter]
    · show docTableName t.id ∉
        ({ cd.working with
            tools := cd.working.tools.filter (fun u => !(u.name == name)) }).tables
      rw [hw2]
      simp [List.mem_filter]
    · simp only [get_tool_by_name]
      rw [execStep_of_ok env _ _ (henv _)]
      dsimp only
      rw [List.find?_eq_none.mpr]
      intro x hx
      rw [hw2] at hx
      simp only [commitConn, List.mem_filter] at hx
      obtain ⟨-, hb⟩ := hx
      simp only [Bool.not_eq_true'] at hb
      simp [hb]
  · intro n s
    simp [applySchemaOp, List.filter_filter, Bool.and_self]
  · intro env c tool_id h0 h1f
    have e1 : execStep env
        (fun s => (applySchemaOp (SchemaOp.dropTable (vecTableName tool_id)) s, ())) c
        = ({ c with
              working := applySchemaOp
                (.dropTable (vecTableName tool_id)) c.working,
              execCount := c.execCount + 1 }, .ok ()) := by
      rw [execStep_of_ok env _ c h0]
    have e2 : execStep env
        (fun s => (applySchemaOp (SchemaOp.dropTable (docTableName tool_id)) s, ()))
        ({ c with
            working := applySchemaOp
              (.dropTable (vecTableName tool_id)) c.working,
            execCount := c.execCount + 1 })
        = ({ c with
              working := applySchemaOp
                (.dropTable (vecTableName tool_id)) c.working,
              execCount := c.execCount + 2 }, .error .storageError) := by
      rw [execStep_of_err env _ _ h1f]
    have hrun : runSchemaOps env (dropToolOps tool_id) c
        = ({ c with
              working := applySchemaOp
                (.dropTable (vecTableName tool_id)) c.working,
              execCount := c.execCount + 2 }, .error .storageError) := by
      simp only [dropToolOps, runSchemaOps, e1, e2]
    have hdrop : drop_tool_tables env tool_id c
        = ({ c with
              working := applySchemaOp
                (.dropTable (vecTableName tool_id)) c.working,
              execCount := c.execCount + 2 }, .error .storageError) := by
      simp only [drop_tool_tables, hrun]
    rw [hdrop]
    refine ⟨rfl, ?_, ?_⟩
    · simp [applySchemaOp, List.mem_filter]
    · intro hmem
      simp only [applySchemaOp]
      simp [List.mem_filter]
      exact ⟨hmem, Ne.symm (vec_ne_doc_table tool_id)⟩
  · intro env c name hsel habsent
    simp only [delete_tool, get_tool_by_name]
    rw [execStep_of_ok env _ c hsel]
    simp [habsent]

/-- C5 witness: the four delete facts evaluated concretely — deleting
`t1` from the one-tool database, drop idempotence on the empty store,
the drop-order observation with the engine failing on the second drop,
and deleting an absent name from the fresh database. -/
theorem delete_tool_removes_row_and_tables_witness :
    ((delete_tool allOk conn1 "t1").2 = .ok true
      ∧ ((delete_tool allOk conn1 "t1").1).working.tools
          = conn1.working.tools.filter (fun u => !(u.name == "t1"))
      ∧ vecTableName tool1.id ∉ ((delete_tool allOk conn1 "t1").1).working.tables
      ∧ docTableName tool1.id ∉ ((delete_tool allOk conn1 "t1").1).working.tables
      ∧ (get_tool_by_name allOk ((delete_tool allOk conn1 "t1").1) "t1").2
          = .ok none)
    ∧ applySchemaOp (.dropTable "vectors_9")
          (applySchemaOp (.dropTable "vectors_9") emptyStore)
        = applySchemaOp (.dropTable "vectors_9") emptyStore
    ∧ ((drop_tool_tables failFromOne 1 conn1).2 = .error .storageError
        ∧ vecTableName 1 ∉ ((drop_tool_tables failFromOne 1 conn1).1).working.tables
        ∧ docTableName 1 ∈ ((drop_tool_tables failFromOne 1 conn1).1).working.tables)
    ∧ delete_tool allOk freshConn "ghost"
        = ({ freshConn with execCount := 1 }, .ok false) := by
  have h := delete_tool_removes_row_and_tables
  refine ⟨h.1 allOk conn1 "t1" tool1 (fun _ => rfl) (by decide),
          h.2.1 "vectors_9" emptyStore,
          ?_,
          h.2.2.2 allOk freshConn "ghost" rfl rfl⟩
  have h3 := h.2.2.1 failFromOne conn1 1 rfl rfl
  exact ⟨h3.1, h3.2.1, h3.2.2 (by decide)⟩

/-- C4: round-trip — for a valid unregistered name and a path that
resolves to an existing directory, a successful `add_tool` followed by
`get_tool_by_name` returns a row whose name and description equal the
inputs and whose `source_directory` is the resolved form of the input
path. -/
theorem add_then_get_round_trip
    (env : ExecEnv) (clock : Clock) (fs : FileSystem) (c : DbConn)
    (name description source_directory rp : String)
    (app_version : Option String)
    (hname : validateToolName name = none)
    (hres : fs.resolve source_directory = .ok rp)
    (hkind : fs.kind rp = .dir)
    (hdup : c.working.tools.find? (fun u => u.name == name) = none)
    (henv : ∀ k, env.execOk k = true) :
    ∃ tid c1,
      add_tool env clock c name description source_directory
          (validate_directory_path fs) app_version = (c1, .ok tid)
      ∧ ∃ t, (get_tool_by_name env c1 name).2 = .ok (some t)
          ∧ t.name = name ∧ t.description = description
          ∧ t.source_directory = rp := by
  have hvd : validate_directory_path fs source_directory = (true, rp, "") := by
    simp [validate_directory_path, hres, hkind]
  have h2 : insertToolStep env clock name description rp app_version
      ({ c with execCount := c.execCount + 1 })
      = (connAfterInsert clock name description rp app_version c,
         .ok c.working.nextId) := by
    simp only [insertToolStep]
    rw [execStep_of_ok env _ _ (henv _)]
    rfl
  rcases hrun : runSchemaOps env (toolSchemaOps c.working.nextId)
      (connAfterInsert clock name description rp app_version c) with ⟨cd, rd⟩
  have hok := runSchemaOps_of_allOk env henv (toolSchemaOps c.working.nextId)
    (connAfterInsert clock name description rp app_version c)
  rw [hrun] at hok
  dsimp only at hok
  subst hok
  have htools := runSchemaOps_tools env (toolSchemaOps c.working.nextId)
    (connAfterInsert clock name description rp app_version c)
  rw [hrun] at htools
  dsimp only [connAfterInsert, storeAfterInsert] at htools
  have hct : create_tool_tables env c.working.nextId
      (connAfterInsert clock name description rp app_version c)
      = (commitConn cd, .ok ()) := by
    simp only [create_tool_tables]
    rw [hrun]
  have hadd : add_tool env clock c name description source_directory
      (validate_directory_path fs) app_version
      = (commitConn (commitConn cd), .ok c.working.nextId) := by
    simp only [add_tool, hname, hvd, get_tool_by_name]
    rw [execStep_of_ok env _ c (henv _)]
    simp [hdup, h2, hct]
  have hget : (get_tool_by_name env (commitConn (commitConn cd)) name).2
      = .ok (some (insertedTool clock name description rp app_version
          c.working.nextId)) := by
    simp only [get_tool_by_name]
    rw [execStep_of_ok env _ _ (henv _)]
    dsimp only
    simp [commitConn, htools, List.find?_append, hdup, List.find?, insertedTool]
  exact ⟨c.working.nextId, commitConn (commitConn cd), hadd,
    insertedTool clock name description rp app_version c.working.nextId,
    hget, rfl, rfl, rfl⟩

/-- C4 witness: the round trip evaluated on the fresh database, adding
`t1` backed by the directory `/data/docs`. -/
theorem add_then_get_round_trip_witness :
    ∃ tid c1,
      add_tool allOk sampleClock freshConn "t1" "desc" "/data/docs"
          (validate_directory_path dirFs) none = (c1, .ok tid)
      ∧ ∃ t, (get_tool_by_name allOk c1 "t1").2 = .ok (some t)
          ∧ t.name = "t1" ∧ t.description = "desc"
          ∧ t.source_directory = "/data/docs" :=
  add_then_get_round_trip allOk sampleClock dirFs freshConn "t1" "desc"
    "/data/docs" "/data/docs" none (by decide) rfl (by decide) rfl
    (fun _ => rfl)

/-- C1: when the duplicate-check SELECT and the registry INSERT both
succeed but the storage engine fails on one of the eight per-tool
schema-provisioning statements, `add_tool` raises, and the
`with db_conn:` exit of the caller rolls back: the committed store is
exactly the one from before the call (no orphan registry row), and the
rolled-back working view equals it. -/
theorem add_rolls_back_when_provision_fails
    (env : ExecEnv) (clock : Clock) (c : DbConn)
    (name description source_directory : String)
    (vd : String → Bool × String × String) (app_version : Option String)
    (hname : validateToolName name = none)
    (hdir : (vd source_directory).1 = true)
    (hdup : c.working.tools.find? (fun u => u.name == name) = none)
    (hsel : env.execOk c.execCount = true)
    (hins : env.execOk (c.execCount + 1) = true)
    (hfail : ∃ j, j < 8 ∧ env.execOk (c.execCount + 2 + j) = false) :
    (add_tool env clock c name description source_directory vd
        app_version).2 = .error .storageError
    ∧ ((with_db_conn c (fun c0 => add_tool env clock c0 name description
          source_directory vd app_version)).1).committed = c.committed
    ∧ ((with_db_conn c (fun c0 => add_tool env clock c0 name description
          source_directory vd app_version)).1).working = c.committed
    ∧ (with_db_conn c (fun c0 => add_tool env clock c0 name description
          source_directory vd app_version)).2 = .error .storageError := by
  rcases hvd : vd source_directory with ⟨iv, rp, em⟩
  rw [hvd] at hdir
  dsimp only at hdir
  subst hdir
  have h2 : insertToolStep env clock name description rp app_version
      ({ c with execCount := c.execCount + 1 })
      = (connAfterInsert clock name description rp app_version c,
         .ok c.working.nextId) := by
    simp only [insertToolStep]
    rw [execStep_of_ok env _ _ hins]
    rfl
  have h3 : (runSchemaOps env (toolSchemaOps c.working.nextId)
      (connAfterInsert clock name description rp app_version c)).2
      = .error .storageError := by
    rcases runSchemaOps_ok_or_err env (toolSchemaOps c.working.nextId)
        (connAfterInsert clock name description rp app_version c) with hok | herr
    · exfalso
      obtain ⟨j, hj, hjf⟩ := hfail
      have hlen : j < (toolSchemaOps c.working.nextId).length := by
        simpa [toolSchemaOps] using hj
      have horacle := runSchemaOps_ok_oracle env (toolSchemaOps c.working.nextId)
        (connAfterInsert clock name description rp app_version c) hok j hlen
      have htrue : env.execOk (c.execCount + 2 + j) = true := horacle
      rw [htrue] at hjf
      exact Bool.noConfusion hjf
    · exact herr
  rcases hrun : runSchemaOps env (toolSchemaOps c.working.nextId)
      (connAfterInsert clock name description rp app_version c) with ⟨cd, rd⟩
  rw [hrun] at h3
  dsimp only at h3
  subst h3
  have hcommitted : cd.committed = c.committed := by
    have hcp := runSchemaOps_committed env (toolSchemaOps c.working.nextId)
      (connAfterInsert clock name description rp app_version c)
    rw [hrun] at hcp
    exact hcp
  have hct : create_tool_tables env c.working.nextId
      (connAfterInsert clock name description rp app_version c)
      = (cd, .error .storageError) := by
    simp only [create_tool_tables]
    rw [hrun]
  have hadd : add_tool env clock c name description source_directory vd
      app_version = (cd, .error .storageError) := by
    simp only [add_tool, hname, hvd, get_tool_by_name]
    rw [execStep_of_ok env _ c hsel]
    simp [hdup, h2, hct]
  refine ⟨?_, ?_, ?_, ?_⟩
  · rw [hadd]
  · simp only [with_db_conn, hadd, rollbackConn]
    exact hcommitted
  · simp only [with_db_conn, hadd, rollbackConn]
    exact hcommitted
  · simp only [with_db_conn, hadd, rollbackConn]

/-- C1 witness: adding `t1` on a fresh database under an oracle that
fails every statement after the SELECT and the INSERT leaves the
committed store untouched. -/
theorem add_rolls_back_when_provision_fails_witness :
    (add_tool failFromTwo sampleClock freshConn "t1" "d" "/data/docs"
        trivialVd none).2 = .error .storageError
    ∧ ((with_db_conn freshConn (fun c0 => add_tool failFromTwo sampleClock c0
          "t1" "d" "/data/docs" trivialVd none)).1).committed
        = freshConn.committed
    ∧ ((with_db_conn freshConn (fun c0 => add_tool failFromTwo sampleClock c0
          "t1" "d" "/data/docs" trivialVd none)).1).working
        = freshConn.committed
    ∧ (with_db_conn freshConn (fun c0 => add_tool failFromTwo sampleClock c0
          "t1" "d" "/data/docs" trivialVd none)).2 = .error .storageError :=
  add_rolls_back_when_provision_fails failFromTwo sampleClock freshConn
    "t1" "d" "/data/docs" trivialVd none (by decide) rfl rfl rfl rfl
    ⟨0, by decide, rfl⟩

end ManageTools
